import Mathlib

/-!
Verification of the politik-cred ingestion pipeline
(`src/import-politicians/populate-politics.py`).

The Python script is shallowly embedded below:
* pure helper functions of the script become Lean functions;
* the Supabase client and the HTTP fetchers are external collaborators, so
  their results (which records a bulk insert accepts, what each source
  adapter returned) are passed in as explicit parameters;
* Python dicts with possibly-absent keys become a structure whose
  possibly-absent fields are `Option`s;
* wall-clock timestamps (`datetime.now().isoformat()`) are passed in as an
  explicit `now : String` parameter.
-/

/-! ### String helpers mirroring the Python string methods used by the script -/

/-- Python `str.lower()` on one character, for the character ranges the data
uses: ASCII `A`-`Z` and the Latin-1 uppercase letters `À`-`Þ` (except `×`)
map 32 codepoints up; every other character is unchanged. -/
def pyLowerChar (c : Char) : Char :=
  if 'A' ≤ c && c ≤ 'Z' then Char.ofNat (c.toNat + 32)
  else if 'À' ≤ c && c ≤ 'Þ' && c ≠ '×' then Char.ofNat (c.toNat + 32)
  else c

/-- Python `str.lower()`. -/
def pyLower (s : String) : String :=
  String.mk (s.data.map pyLowerChar)

/-- The ASCII whitespace characters removed by Python `str.strip()`. -/
def isPyWhitespace (c : Char) : Bool :=
  c == ' ' || c == '\t' || c == '\n' || c == '\r' || c == '\x0b' || c == '\x0c'

/-- Python `str.strip()`. -/
def pyStrip (s : String) : String :=
  String.mk (((s.data.dropWhile isPyWhitespace).reverse.dropWhile isPyWhitespace).reverse)

/-- Python `str.replace(' ', '_')`, as used to build the dedup key. -/
def spaceToUnderscore (s : String) : String :=
  String.mk (s.data.map (fun c => if c == ' ' then '_' else c))

/-- Does `hay` start with `needle`? (helper for the substring test). -/
def listStartsWith : List Char → List Char → Bool
  | [], _ => true
  | _ :: _, [] => false
  | n :: ns, h :: hs => n == h && listStartsWith ns hs

/-- Substring occurrence over character lists (helper for `pyInStr`). -/
def containsSub (needle : List Char) : List Char → Bool
  | [] => needle.isEmpty
  | h :: t => listStartsWith needle (h :: t) || containsSub needle t

/-- Python `needle in haystack` on strings. -/
def pyInStr (needle haystack : String) : Bool :=
  containsSub needle.data haystack.data

/-! ### The canonical politician record

One structure for the dict the script builds for every source.  Fields the
script sometimes leaves absent (`dict.get` with a default is used on them,
or they are only written by `_assign_visual_elements`) are `Option`s; a
`none` stands for the key being absent (for `avatar_url` it also stands for
an explicit Python `None`, which the script treats identically). -/

structure Politician where
  name : String
  first_name : String
  last_name : String
  party : String
  position : String
  constituency : String
  birth_date : Option String
  gender : Option String
  political_orientation : Option String
  bio : String
  credibility_score : Option Int
  is_active : Bool
  verification_status : String
  created_at : String
  updated_at : String
  avatar_url : Option String
  card_color : Option String
  cartoon_expression : Option String
  credibility_badge : Option String
  credibility_label : Option String
  highlight : Option Bool
  crown : Option String
deriving DecidableEq

/-- A politician record with every field empty/absent, used to write
concrete records compactly. -/
def basePol : Politician :=
  { name := "", first_name := "", last_name := "", party := "", position := ""
    constituency := "", birth_date := none, gender := none
    political_orientation := none, bio := "", credibility_score := none
    is_active := true, verification_status := "verified"
    created_at := "", updated_at := "", avatar_url := none, card_color := none
    cartoon_expression := none, credibility_badge := none
    credibility_label := none, highlight := none, crown := none }

/-! ### `_determine_orientation` (lines 447-471) -/

/-- The keyword table of `_determine_orientation`, in the source's insertion
order (Python dicts iterate in insertion order, and the loop returns on the
first matching keyword). -/
def orientationTable : List (String × String) :=
  [("la france insoumise", "left"),
   ("parti socialiste", "center-left"),
   ("europe ecologie", "center-left"),
   ("renaissance", "center"),
   ("modem", "center"),
   ("agir", "center"),
   ("les republicains", "center-right"),
   ("lr", "center-right"),
   ("rassemblement national", "right"),
   ("reconquete", "right")]

/-- The keyword loop of `_determine_orientation`: first key that occurs as a
substring of the lowercased party wins; otherwise `center`. -/
def firstOrientation (partyLower : String) : List (String × String) → String
  | [] => "center"
  | (k, o) :: rest => if pyInStr k partyLower then o else firstOrientation partyLower rest

/-- `_determine_orientation`: empty party goes to `center`, otherwise the
first keyword of the table occurring in the lowercased label decides. -/
def determineOrientation (party : String) : String :=
  if party == "" then "center"
  else firstOrientation (pyLower party) orientationTable

/-! ### `_assign_visual_elements` (lines 191-256) -/

/-- The `avatar_mapping` dict of `_assign_visual_elements`. -/
def avatarMapping : List (String × String) :=
  [("élisabeth borne", "/images/borne.png"),
   ("sébastien lecornu", "/images/lecornu.png"),
   ("éric lombard", "/images/lombart.png"),
   ("marine le pen", "/images/lepen.jpeg")]

/-- The `orientation_colors` dict of `_assign_visual_elements`. -/
def orientationColors : List (String × String) :=
  [("left", "#DC2626"),
   ("center-left", "#059669"),
   ("center", "#1E3A8A"),
   ("center-right", "#D97706"),
   ("right", "#7C2D12")]

/-- Python `dict.get(k)`: first (here: only) binding of the key, if any. -/
def lookupFirst (k : String) : List (String × String) → Option String
  | [] => none
  | (a, v) :: rest => if a == k then some v else lookupFirst k rest

/-- The `role_styles` dict of `_assign_visual_elements`, in insertion order
(`highlight`, `crown`). -/
def roleStyles : List (String × Bool × String) :=
  [("Premier ministre", (true, "👑")),
   ("Ministre d\u0027État", (true, "⭐")),
   ("Député", (false, "🗳️")),
   ("Sénateur", (false, "🏛️")),
   ("Maire", (false, "🏙️"))]

/-- The role loop of `_assign_visual_elements`: the first role keyword whose
lowercasing occurs in the lowercased position wins; the for-else branch
yields `(highlight := False, crown := 👤)`. -/
def firstRoleStyle (positionLower : String) : List (String × Bool × String) → Bool × String
  | [] => (false, "👤")
  | (role, st) :: rest =>
    if pyInStr (pyLower role) positionLower then st else firstRoleStyle positionLower rest

/-- The `cartoon_expression` branch of the credibility if-chain
(lines 226-237), as a function of the score. -/
def tierExpr (c : Int) : String :=
  if c ≥ 80 then "confident" else if c ≥ 60 then "neutral" else "skeptical"

/-- The `credibility_badge` branch of the credibility if-chain. -/
def tierBadge (c : Int) : String :=
  if c ≥ 80 then "🏆" else if c ≥ 60 then "⚖️" else "⚠️"

/-- The `credibility_label` branch of the credibility if-chain. -/
def tierLabel (c : Int) : String :=
  if c ≥ 80 then "Il assure lauiss !" else if c ≥ 60 then "Moyen lauiss..." else "Louche lauiss !"

/-- `_assign_visual_elements`: avatar lookup on the lowercased stripped full
name, card color from the orientation (default `center`, unknown values get
`#1E3A8A`), the credibility if-chain on `credibility_score` (absent key
defaults to 100), and the first-matching role style. -/
def assignVisualElements (p : Politician) : Politician :=
  let fullName := pyStrip (pyLower (p.first_name ++ " " ++ p.last_name))
  let cred := p.credibility_score.getD 100
  let rs := firstRoleStyle (pyLower p.position) roleStyles
  { p with
    avatar_url := lookupFirst fullName avatarMapping
    card_color := some ((lookupFirst (p.political_orientation.getD "center") orientationColors).getD "#1E3A8A")
    cartoon_expression := some (tierExpr cred)
    credibility_badge := some (tierBadge cred)
    credibility_label := some (tierLabel cred)
    highlight := some rs.1
    crown := some rs.2 }

/-! ### `fetch_deputes` (lines 71-134) and `_extract_party_from_mandate`

The HTTP fetch and JSON decode are external; what the loop body does with
one decoded `acteur` entry is modelled.  `DeputyRaw` carries the pieces of
the raw JSON the loop reads; `organes` is the mandate's organ list as
(`@codeType`, `libelle`) pairs. -/

structure DeputyRaw where
  prenom : String
  nom : String
  civ : String
  dateNais : Option String
  legislature : String
  numCirconscription : String
  departement : String
  organes : List (String × String)
deriving DecidableEq

/-- `_extract_party_from_mandate` (lines 435-445): the `libelle` of the
first organ with `@codeType == 'GP'`, else `Non inscrit`. -/
def extractPartyFromMandate (organes : List (String × String)) : String :=
  match organes.find? (fun o => o.1 == "GP") with
  | some o => o.2
  | none => "Non inscrit"

/-- The deputy record built by the loop body of `fetch_deputes`
(lines 109-125).  Note no presentation field is written:
`_assign_visual_elements` is never called on deputies. -/
def mkDeputy (now : String) (r : DeputyRaw) : Politician :=
  { name := pyStrip (r.prenom ++ " " ++ r.nom)
    first_name := r.prenom
    last_name := r.nom
    party := extractPartyFromMandate r.organes
    position := "Député"
    constituency := "Circonscription " ++ r.numCirconscription ++ " - " ++ r.departement
    birth_date := r.dateNais
    gender := some (if r.civ == "M." then "M" else "F")
    political_orientation := some (determineOrientation (extractPartyFromMandate r.organes))
    bio := "Député de la " ++ r.legislature ++ "e législature"
    credibility_score := some 100
    is_active := true
    verification_status := "verified"
    created_at := now
    updated_at := now
    avatar_url := none, card_color := none, cartoon_expression := none
    credibility_badge := none, credibility_label := none
    highlight := none, crown := none }

/-- The record-building loop of `fetch_deputes` over the decoded acteur
entries. -/
def fetchDeputes (now : String) (raws : List DeputyRaw) : List Politician :=
  raws.map (mkDeputy now)

/-! ### `_clean_and_deduplicate` (lines 543-568) -/

/-- The field cleanup at the top of the loop body: `name`, `first_name`,
`last_name` and `party` are stripped in place. -/
def cleanFields (p : Politician) : Politician :=
  { p with
    name := pyStrip p.name
    first_name := pyStrip p.first_name
    last_name := pyStrip p.last_name
    party := pyStrip p.party }

/-- The dedup key (line 557):
`f"{first.lower()}_{last.lower()}".replace(' ', '_')`. -/
def dedupKey (p : Politician) : String :=
  spaceToUnderscore (pyLower p.first_name ++ "_" ++ pyLower p.last_name)

/-- Modelled from the spec's words (section 3, dedup-key invariant), for
comparison with `dedupKey`: lowercase first name, an underscore, lowercase
last name, "with internal spaces stripped" (removed). -/
def dedupKeySpec (p : Politician) : String :=
  String.mk ((pyLower p.first_name ++ "_" ++ pyLower p.last_name).data.filter (fun c => !(c == ' ')))

/-- The validity part of the loop condition (lines 560-563), on the cleaned
record: non-empty `name`, non-empty `position`, key different from `"_"`. -/
def validB (q : Politician) : Bool :=
  q.name != "" && q.position != "" && dedupKey q != "_"

/-- The loop of `_clean_and_deduplicate`: one left-to-right pass carrying
the `seen` key set; an element is kept iff its key is unseen and it is
valid, and only then its key is added to `seen`. -/
def dedupGo (seen : List String) : List Politician → List Politician
  | [] => []
  | p :: rest =>
    let q := cleanFields p
    let key := dedupKey q
    if !(seen.contains key) && q.name != "" && q.position != "" && key != "_"
    then q :: dedupGo (key :: seen) rest
    else dedupGo seen rest

/-- `_clean_and_deduplicate`. -/
def cleanAndDeduplicate (politicians : List Politician) : List Politician :=
  dedupGo [] politicians

/-- Modelled from the spec's words (section 4.4), for comparison with
`cleanAndDeduplicate`: keep the first occurrence of each dedup key,
dropping every later element whose key was already seen. -/
def keepFirstByKey (seen : List String) : List Politician → List Politician
  | [] => []
  | q :: rest =>
    if seen.contains (dedupKey q)
    then keepFirstByKey seen rest
    else q :: keepFirstByKey (dedupKey q :: seen) rest

/-! ### `insert_politicians_batch` (lines 473-500)

The Supabase client is external: which calls succeed is a parameter.
`bulkOk batch` tells whether the bulk insert of a batch raises, `singleOk r`
whether the individual fallback insert of record `r` raises.  The records
whose individual insert fails are only logged by the script; the model
collects that log in `failed` (the script's return value is the `inserted`
field alone). -/

structure InsertResult (α : Type) where
  inserted : Nat
  failed : List α
deriving DecidableEq

/-- `politicians[i:i + batch_size]` grouping of the `for i in range(0,
len(politicians), batch_size)` loop.  (`batch_size = 0` would raise in
Python; the call site always uses the default 50, and every theorem below
assumes a positive batch size.) -/
def chunks (bs : Nat) (l : List α) : List (List α) :=
  match bs, l with
  | _, [] => []
  | 0, _ :: _ => []
  | b + 1, x :: xs => (x :: xs).take (b + 1) :: chunks (b + 1) (xs.drop b)
termination_by l.length
decreasing_by simp [List.length_drop]; omega

/-- One iteration of the batch loop: bulk insert, and on failure the
per-record fallback in batch order (successes counted, failures logged). -/
def processBatch (bulkOk : List α → Bool) (singleOk : α → Bool) (batch : List α) : InsertResult α :=
  if bulkOk batch then
    { inserted := batch.length, failed := [] }
  else
    { inserted := (batch.filter singleOk).length
      failed := batch.filter (fun r => !(singleOk r)) }

/-- The whole batch loop, accumulating `total_inserted` and the failure
log. -/
def runBatches (bulkOk : List α → Bool) (singleOk : α → Bool) : List (List α) → InsertResult α
  | [] => { inserted := 0, failed := [] }
  | b :: rest =>
    let r := processBatch bulkOk singleOk b
    let s := runBatches bulkOk singleOk rest
    { inserted := r.inserted + s.inserted, failed := r.failed ++ s.failed }

/-- `insert_politicians_batch`. -/
def insertPoliticiansBatch (bulkOk : List α → Bool) (singleOk : α → Bool)
    (batchSize : Nat) (politicians : List α) : InsertResult α :=
  runBatches bulkOk singleOk (chunks batchSize politicians)

/-! ### `populate_database` (lines 502-541), `__init__` (lines 50-58) and
`main` (lines 571-586)

Each `fetch_*` either returns its record list or raises internally and
returns `[]`; an adapter outcome is therefore an `Option (List Politician)`
with `none` for "the adapter failed" (absorbed to the empty list at the
adapter boundary). -/

/-- The adapter boundary: a failed fetch surfaces as the empty list. -/
def absorb (outcome : Option (List Politician)) : List Politician :=
  outcome.getD []

/-- `populate_database`: concatenate the four sources in fixed order
(deputies, senators, ministers, mayors), clean and deduplicate, and insert
with the default batch size 50; with nothing to insert the count 0 is
returned.  The return value is the bare inserted count. -/
def populateDatabase (bulkOk : List Politician → Bool) (singleOk : Politician → Bool)
    (deputies senators ministers mayors : Option (List Politician)) : Nat :=
  let allPoliticians := absorb deputies ++ absorb senators ++ absorb ministers ++ absorb mayors
  let cleaned := cleanAndDeduplicate allPoliticians
  if !cleaned.isEmpty then (insertPoliticiansBatch bulkOk singleOk 50 cleaned).inserted else 0

/-- The spec's `total_fetched` figure for a run: how many records the four
adapters delivered. -/
def totalFetched (deputies senators ministers mayors : Option (List Politician)) : Nat :=
  (absorb deputies ++ absorb senators ++ absorb ministers ++ absorb mayors).length

/-- Python falsiness of an optional environment string: unset or empty. -/
def falsyStr : Option String → Bool
  | none => true
  | some s => s == ""

/-- The configuration error message of `__init__`. -/
def configErrMsg : String :=
  "🚨 POLITIKCRED ERROR: Variables SUPABASE_URL et SUPABASE_ANON_KEY requises dans .env - On peut pas check sans la base lauiss !"

/-- The credential check of `__init__` (lines 52-56): `ValueError` iff
`SUPABASE_URL` or `SUPABASE_ANON_KEY` is unset or empty, before any fetch
or insert is attempted. -/
def fetcherInit (url key : Option String) : Except String Unit :=
  if falsyStr url || falsyStr key then Except.error configErrMsg else Except.ok ()

/-- Constructing the fetcher then running `populate_database`, as `main`
does: the only error a caller can see is the configuration error raised by
the constructor. -/
def runMain (url key : Option String) (bulkOk : List Politician → Bool)
    (singleOk : Politician → Bool)
    (deputies senators ministers mayors : Option (List Politician)) : Except String Nat :=
  match fetcherInit url key with
  | Except.error e => Except.error e
  | Except.ok _ => Except.ok (populateDatabase bulkOk singleOk deputies senators ministers mayors)

/-! ### Concrete records used by counterexamples and witnesses -/

/-- An entity that fails the validity check (empty position) but has a
well-formed dedup key. -/
def dupBad : Politician :=
  { basePol with name := "Jean Dupont", first_name := "Jean", last_name := "Dupont", position := "" }

/-- A valid entity with the same dedup key as `dupBad`. -/
def dupGood : Politician :=
  { basePol with name := "Jean Dupont", first_name := "Jean", last_name := "Dupont", position := "Député" }

/-- A valid entity whose first name contains an internal space. -/
def jeanPierre : Politician :=
  { basePol with name := "Jean Pierre Dupont", first_name := "Jean Pierre", last_name := "Dupont", position := "Député" }

/-- A decoded acteur entry as the deputies adapter delivers it. -/
def jeanRaw : DeputyRaw :=
  { prenom := "Jean", nom := "Dupont", civ := "M.", dateNais := some "1970-01-01"
    legislature := "17", numCirconscription := "1", departement := "Paris"
    organes := [("GP", "Les Républicains")] }

/-- The politician record `fetch_deputes` builds from `jeanRaw`. -/
def jeanDeputy : Politician := mkDeputy "2024-12-27T00:00:00" jeanRaw

/-- A politician carrying a mid-range credibility score. -/
def polScore75 : Politician := { basePol with credibility_score := some 75 }

/-! ### Helper lemmas about the credibility tier if-chain -/

lemma assign_badge (p : Politician) :
    (assignVisualElements p).credibility_badge
      = some (tierBadge (p.credibility_score.getD 100)) := rfl

lemma assign_label (p : Politician) :
    (assignVisualElements p).credibility_label
      = some (tierLabel (p.credibility_score.getD 100)) := rfl

lemma assign_expr (p : Politician) :
    (assignVisualElements p).cartoon_expression
      = some (tierExpr (p.credibility_score.getD 100)) := rfl

lemma tier_high_iff (s : Int) :
    (tierBadge s = "🏆" ∧ tierLabel s = "Il assure lauiss !" ∧ tierExpr s = "confident")
      ↔ 80 ≤ s := by
  unfold tierBadge tierLabel tierExpr
  by_cases h80 : s ≥ 80
  · simp [h80]
  · by_cases h60 : s ≥ 60 <;> simp [h80, h60]

lemma tier_med_iff (s : Int) :
    (tierBadge s = "⚖️" ∧ tierLabel s = "Moyen lauiss..." ∧ tierExpr s = "neutral")
      ↔ (60 ≤ s ∧ s < 80) := by
  unfold tierBadge tierLabel tierExpr
  by_cases h80 : s ≥ 80
  · simp [h80]
  · by_cases h60 : s ≥ 60
    · simp [h80, h60]
      omega
    · simp [h80, h60]

lemma tier_low_iff (s : Int) :
    (tierBadge s = "⚠️" ∧ tierLabel s = "Louche lauiss !" ∧ tierExpr s = "skeptical")
      ↔ s < 60 := by
  unfold tierBadge tierLabel tierExpr
  by_cases h80 : s ≥ 80
  · simp [h80]
    omega
  · by_cases h60 : s ≥ 60
    · simp [h80, h60]
    · simp [h80, h60]
      omega

/-- C1: the styler maps a present credibility score `s` to the high
badge/label/expression triple exactly when `s ≥ 80`, to the medium triple
exactly when `60 ≤ s < 80`, and to the low triple exactly when `s < 60`;
the three score ranges partition the integers, with both thresholds closed
on the high side. -/
theorem credibility_tier_partition (p : Politician) (s : Int)
    (h : p.credibility_score = some s) :
    (((assignVisualElements p).credibility_badge = some "🏆" ∧
      (assignVisualElements p).credibility_label = some "Il assure lauiss !" ∧
      (assignVisualElements p).cartoon_expression = some "confident") ↔ 80 ≤ s) ∧
    (((assignVisualElements p).credibility_badge = some "⚖️" ∧
      (assignVisualElements p).credibility_label = some "Moyen lauiss..." ∧
      (assignVisualElements p).cartoon_expression = some "neutral") ↔ (60 ≤ s ∧ s < 80)) ∧
    (((assignVisualElements p).credibility_badge = some "⚠️" ∧
      (assignVisualElements p).credibility_label = some "Louche lauiss !" ∧
      (assignVisualElements p).cartoon_expression = some "skeptical") ↔ s < 60) ∧
    (80 ≤ s ∨ (60 ≤ s ∧ s < 80) ∨ s < 60) := by
  have hs : p.credibility_score.getD 100 = s := by rw [h]; rfl
  have hb := assign_badge p
  have hl := assign_label p
  have he := assign_expr p
  rw [hs] at hb hl he
  rw [hb, hl, he]
  simp only [Option.some.injEq]
  exact ⟨tier_high_iff s, tier_med_iff s, tier_low_iff s, by omega⟩

/-- C1 witness: at score 75 the styler's output is the medium triple. -/
theorem credibility_tier_partition_witness :
    (assignVisualElements polScore75).credibility_badge = some "⚖️" ∧
    (assignVisualElements polScore75).credibility_label = some "Moyen lauiss..." ∧
    (assignVisualElements polScore75).cartoon_expression = some "neutral" :=
  (credibility_tier_partition polScore75 75 rfl).2.1.mpr (by decide)

/-- C10: an entity reaching the styler with no `credibility_score` key is
styled as if its score were 100: it gets the confident expression, the 🏆
badge and the high label, the same presentation the styler gives the same
entity with score 100. -/
theorem missing_score_styled_high (p : Politician) (h : p.credibility_score = none) :
    (assignVisualElements p).cartoon_expression = some "confident" ∧
    (assignVisualElements p).credibility_badge = some "🏆" ∧
    (assignVisualElements p).credibility_label = some "Il assure lauiss !" ∧
    (assignVisualElements p).cartoon_expression
      = (assignVisualElements { p with credibility_score := some 100 }).cartoon_expression ∧
    (assignVisualElements p).credibility_badge
      = (assignVisualElements { p with credibility_score := some 100 }).credibility_badge ∧
    (assignVisualElements p).credibility_label
      = (assignVisualElements { p with credibility_score := some 100 }).credibility_label := by
  have hs : p.credibility_score.getD 100 = (100 : Int) := by rw [h]; rfl
  have hb := assign_badge p
  have hl := assign_label p
  have he := assign_expr p
  rw [hs] at hb hl he
  have hb' := assign_badge { p with credibility_score := some 100 }
  have hl' := assign_label { p with credibility_score := some 100 }
  have he' := assign_expr { p with credibility_score := some 100 }
  refine ⟨?_, ?_, ?_, ?_, ?_, ?_⟩ <;>
    simp [hb, hl, he, hb', hl', he', tierExpr, tierBadge, tierLabel]

/-- C10 witness: the all-empty record has no credibility score and is
styled as high tier. -/
theorem missing_score_styled_high_witness :
    (assignVisualElements basePol).cartoon_expression = some "confident" ∧
    (assignVisualElements basePol).credibility_badge = some "🏆" :=
  ⟨(missing_score_styled_high basePol rfl).1, (missing_score_styled_high basePol rfl).2.1⟩

/-- C6: evaluating the orientation classifier at the accented party label
the sources produce: `"Les Républicains"` is classified `center`, not
`center-right` — the table entry `les republicains` is unaccented and the
classifier lowercases without folding accents, so it only fires on the
unaccented spelling. -/
theorem orientation_les_republicains :
    determineOrientation "Les Républicains" = "center" ∧
    determineOrientation "les republicains" = "center-right" ∧
    pyLower "Les Républicains" = "les républicains" := by
  refine ⟨by decide, by decide, by decide⟩

/-! ### Helper lemmas about `_clean_and_deduplicate` -/

lemma dedupGo_eq (l : List Politician) :
    ∀ seen, dedupGo seen l = keepFirstByKey seen ((l.map cleanFields).filter validB) := by
  induction l with
  | nil => intro seen; rfl
  | cons p rest ih =>
    intro seen
    have hA : ∀ (c : Bool) (q : Politician),
        (!c && q.name != "" && q.position != "" && dedupKey q != "_") = (!c && validB q) := by
      intro c q; simp [validB, Bool.and_assoc]
    simp only [dedupGo, List.map_cons, List.filter_cons, hA]
    by_cases hv : validB (cleanFields p) = true
    · simp only [hv, Bool.and_true]
      by_cases hc : dedupKey (cleanFields p) ∈ seen
      · simp [keepFirstByKey, hc]
        exact ih seen
      · simp [keepFirstByKey, hc]
        exact ih _
    · simp only [Bool.not_eq_true] at hv
      simp [hv]
      exact ih seen

lemma keepFirst_subset :
    ∀ (l : List Politician) (seen : List String) (q : Politician),
      q ∈ keepFirstByKey seen l → q ∈ l := by
  intro l
  induction l with
  | nil => intro seen q h; simp [keepFirstByKey] at h
  | cons x rest ih =>
    intro seen q h
    by_cases hc : List.contains seen (dedupKey x) = true
    · simp only [keepFirstByKey, hc, if_true] at h
      exact List.mem_cons_of_mem _ (ih seen q h)
    · simp only [Bool.not_eq_true] at hc
      simp only [keepFirstByKey, hc, Bool.false_eq_true, if_false, List.mem_cons] at h
      rcases h with h | h
      · exact h ▸ List.mem_cons_self _ _
      · exact List.mem_cons_of_mem _ (ih _ q h)

lemma keepFirst_not_seen :
    ∀ (l : List Politician) (seen : List String) (q : Politician),
      q ∈ keepFirstByKey seen l → List.contains seen (dedupKey q) = false := by
  intro l
  induction l with
  | nil => intro seen q h; simp [keepFirstByKey] at h
  | cons x rest ih =>
    intro seen q h
    by_cases hc : List.contains seen (dedupKey x) = true
    · exact ih seen q (by simpa only [keepFirstByKey, hc, if_true] using h)
    · simp only [Bool.not_eq_true] at hc
      simp only [keepFirstByKey, hc, Bool.false_eq_true, if_false, List.mem_cons] at h
      rcases h with rfl | h
      · exact hc
      · have h2 := ih _ q h
        simp only [List.contains_cons, Bool.or_eq_false_iff] at h2
        exact h2.2

lemma keepFirst_pairwise :
    ∀ (l : List Politician) (seen : List String),
      (keepFirstByKey seen l).Pairwise (fun a b => dedupKey a ≠ dedupKey b) := by
  intro l
  induction l with
  | nil => intro seen; simp [keepFirstByKey]
  | cons x rest ih =>
    intro seen
    by_cases hc : List.contains seen (dedupKey x) = true
    · simpa only [keepFirstByKey, hc, if_true] using ih seen
    · simp only [Bool.not_eq_true] at hc
      simp only [keepFirstByKey, hc, Bool.false_eq_true, if_false, List.pairwise_cons]
      constructor
      · intro b hb
        have h2 := keepFirst_not_seen rest (dedupKey x :: seen) b hb
        simp only [List.contains_cons, Bool.or_eq_false_iff, beq_eq_false_iff_ne, ne_eq] at h2
        exact fun hEq => h2.1 hEq.symm
      · exact ih _

/-- C2 counterexample: with an invalid first occurrence (empty position)
followed by a valid entity with the same dedup key, the dedup pass does not
keep the first occurrence and does not drop the later one — the invalid
first entity leaves no trace in the seen-key set, so the later duplicate
survives. -/
theorem dedup_first_occurrence_counterexample :
    dedupKey (cleanFields dupBad) = dedupKey (cleanFields dupGood) ∧
    cleanAndDeduplicate [dupBad, dupGood] = [dupGood] ∧
    cleanFields dupBad ∉ cleanAndDeduplicate [dupBad, dupGood] := by
  refine ⟨by decide, by decide, by decide⟩

/-- C2 (amended): deduplication is the left-to-right first-occurrence
filter on the entities that pass the validity check — among the cleaned
valid entities, exactly the first occurrence of each dedup key survives and
every later valid entity with a seen key is dropped; consequently its
output has pairwise distinct dedup keys (at most one entity per key). -/
theorem dedup_keeps_first_valid_occurrence (l : List Politician) :
    cleanAndDeduplicate l = keepFirstByKey [] ((l.map cleanFields).filter validB) ∧
    (cleanAndDeduplicate l).Pairwise (fun a b => dedupKey a ≠ dedupKey b) := by
  have h0 : cleanAndDeduplicate l
      = keepFirstByKey [] ((l.map cleanFields).filter validB) := dedupGo_eq l []
  exact ⟨h0, h0 ▸ keepFirst_pairwise _ []⟩

/-- C7 counterexample: for a first name with an internal space the code's
dedup key replaces the space by an underscore rather than stripping it, so
it differs from the spec-worded key with internal spaces removed. -/
theorem dedup_key_spaces_counterexample :
    dedupKey jeanPierre ≠ dedupKeySpec jeanPierre ∧
    dedupKey jeanPierre = "jean_pierre_dupont" ∧
    dedupKeySpec jeanPierre = "jeanpierre_dupont" := by
  refine ⟨by decide, by decide, by decide⟩

/-- C7 (amended): the dedup key is the lowercase first name, an
underscore, and the lowercase last name, with each internal space replaced
by an underscore; every entity surviving deduplication has a non-empty
name, a non-empty position and a key different from `"_"`, and an entity
failing that validity check never appears in the output. -/
theorem dedup_key_and_validity (l : List Politician) :
    (∀ q, q ∈ cleanAndDeduplicate l →
        q.name ≠ "" ∧ q.position ≠ "" ∧ dedupKey q ≠ "_" ∧
        dedupKey q = spaceToUnderscore (pyLower q.first_name ++ "_" ++ pyLower q.last_name)) ∧
    (∀ p, p ∈ l → validB (cleanFields p) = false →
        cleanFields p ∉ cleanAndDeduplicate l) := by
  have h0 : cleanAndDeduplicate l
      = keepFirstByKey [] ((l.map cleanFields).filter validB) := dedupGo_eq l []
  have hmem : ∀ q, q ∈ cleanAndDeduplicate l → validB q = true := by
    intro q hq
    rw [h0] at hq
    exact (List.mem_filter.mp (keepFirst_subset _ _ _ hq)).2
  constructor
  · intro q hq
    have hv := hmem q hq
    simp only [validB, Bool.and_eq_true, bne_iff_ne, ne_eq] at hv
    exact ⟨hv.1.1, hv.1.2, hv.2, rfl⟩
  · intro p _hp hbad hmem2
    have hv := hmem _ hmem2
    rw [hbad] at hv
    exact Bool.noConfusion hv

/-- C7 witness: the concrete valid entity `dupGood` survives deduplication
and satisfies the key and validity facts. -/
theorem dedup_key_and_validity_witness :
    dupGood.name ≠ "" ∧ dupGood.position ≠ "" ∧ dedupKey dupGood ≠ "_" ∧
    dedupKey dupGood
      = spaceToUnderscore (pyLower dupGood.first_name ++ "_" ++ pyLower dupGood.last_name) :=
  (dedup_key_and_validity [dupGood]).1 dupGood (by decide)

/-! ### Helper lemmas about the batch persister -/

lemma chunks_flatten (b : Nat) (l : List α) : (chunks (b + 1) l).flatten = l := by
  cases l with
  | nil => simp [chunks]
  | cons x xs =>
    have ih := chunks_flatten b (xs.drop b)
    simp only [chunks, List.flatten_cons, ih]
    exact List.take_append_drop (b + 1) (x :: xs)
termination_by l.length
decreasing_by simp [List.length_drop]; omega

lemma filter_length_split (p : α → Bool) (l : List α) :
    (l.filter p).length + (l.filter (fun a => !(p a))).length = l.length := by
  induction l with
  | nil => rfl
  | cons x xs ih =>
    by_cases h : p x = true <;> simp [List.filter_cons, h] <;> omega

lemma processBatch_account (bulkOk : List α → Bool) (singleOk : α → Bool) (b : List α) :
    (processBatch bulkOk singleOk b).inserted + (processBatch bulkOk singleOk b).failed.length
      = b.length := by
  unfold processBatch
  by_cases h : bulkOk b = true
  · simp [h]
  · simp only [Bool.not_eq_true] at h
    simp only [h, Bool.false_eq_true, if_false]
    exact filter_length_split singleOk b

lemma processBatch_failed_sublist (bulkOk : List α → Bool) (singleOk : α → Bool) (b : List α) :
    List.Sublist (processBatch bulkOk singleOk b).failed b := by
  unfold processBatch
  by_cases h : bulkOk b = true
  · simp [h]
  · simp only [Bool.not_eq_true] at h
    simp only [h, Bool.false_eq_true, if_false]
    exact List.filter_sublist b

lemma runBatches_account (bulkOk : List α → Bool) (singleOk : α → Bool)
    (batches : List (List α)) :
    (runBatches bulkOk singleOk batches).inserted
        + (runBatches bulkOk singleOk batches).failed.length
      = batches.flatten.length := by
  induction batches with
  | nil => rfl
  | cons b rest ih =>
    have hb := processBatch_account bulkOk singleOk b
    simp only [runBatches, List.flatten_cons, List.length_append]
    omega

lemma runBatches_failed_sublist (bulkOk : List α → Bool) (singleOk : α → Bool)
    (batches : List (List α)) :
    List.Sublist (runBatches bulkOk singleOk batches).failed batches.flatten := by
  induction batches with
  | nil => exact List.Sublist.refl _
  | cons b rest ih =>
    simp only [runBatches, List.flatten_cons]
    exact List.Sublist.append (processBatch_failed_sublist bulkOk singleOk b) ih

lemma runBatches_all_bulk_fail (bulkOk : List α → Bool) (singleOk : α → Bool)
    (hfail : ∀ b, bulkOk b = false) (batches : List (List α)) :
    runBatches bulkOk singleOk batches
      = { inserted := (batches.flatten.filter singleOk).length
          failed := batches.flatten.filter (fun r => !(singleOk r)) } := by
  induction batches with
  | nil => rfl
  | cons b rest ih =>
    simp only [runBatches, ih, processBatch, hfail b, Bool.false_eq_true, if_false,
      List.flatten_cons, List.filter_append, List.length_append]

/-- C3: for every run of the batch persister, the returned inserted count
is at most the number of submitted records, and the records split exactly
between the inserted count and the failure log: `inserted + |failed| =
submitted`, with the failure log a sublist of the submitted records (each
submitted record is accounted for exactly once). -/
theorem insert_batch_accounting (bulkOk : List α → Bool) (singleOk : α → Bool)
    (bs : Nat) (pols : List α) (hbs : 0 < bs) :
    (insertPoliticiansBatch bulkOk singleOk bs pols).inserted ≤ pols.length ∧
    (insertPoliticiansBatch bulkOk singleOk bs pols).inserted
        + (insertPoliticiansBatch bulkOk singleOk bs pols).failed.length = pols.length ∧
    List.Sublist (insertPoliticiansBatch bulkOk singleOk bs pols).failed pols := by
  obtain ⟨b, rfl⟩ : ∃ b, bs = b + 1 := ⟨bs - 1, by omega⟩
  unfold insertPoliticiansBatch
  have hacc := runBatches_account bulkOk singleOk (chunks (b + 1) pols)
  have hsub := runBatches_failed_sublist bulkOk singleOk (chunks (b + 1) pols)
  rw [chunks_flatten] at hacc hsub
  exact ⟨by omega, hacc, hsub⟩

/-- C3 witness: a concrete all-succeeding run over three records with the
default batch size 50. -/
theorem insert_batch_accounting_witness :
    (insertPoliticiansBatch (fun _ : List Nat => true) (fun _ : Nat => true) 50 [7, 8, 9]).inserted
        ≤ [7, 8, 9].length ∧
    (insertPoliticiansBatch (fun _ : List Nat => true) (fun _ : Nat => true) 50 [7, 8, 9]).inserted
        + (insertPoliticiansBatch (fun _ : List Nat => true) (fun _ : Nat => true) 50
            [7, 8, 9]).failed.length = [7, 8, 9].length ∧
    List.Sublist
      (insertPoliticiansBatch (fun _ : List Nat => true) (fun _ : Nat => true) 50 [7, 8, 9]).failed
      [7, 8, 9] :=
  insert_batch_accounting (fun _ => true) (fun _ => true) 50 [7, 8, 9] (by decide)

/-- C4: when every bulk insert fails, each batch is retried one record at a
time in order: the run's inserted count is exactly the number of
individually succeeding records, and the failure log is exactly the
in-order list of individually failing records — no batch failure aborts
the remaining records or later batches. -/
theorem insert_batch_fallback (bulkOk : List α → Bool) (singleOk : α → Bool)
    (bs : Nat) (pols : List α) (hbs : 0 < bs) (hfail : ∀ b, bulkOk b = false) :
    (insertPoliticiansBatch bulkOk singleOk bs pols).inserted
        = (pols.filter singleOk).length ∧
    (insertPoliticiansBatch bulkOk singleOk bs pols).failed
        = pols.filter (fun r => !(singleOk r)) := by
  obtain ⟨b, rfl⟩ : ∃ b, bs = b + 1 := ⟨bs - 1, by omega⟩
  unfold insertPoliticiansBatch
  rw [runBatches_all_bulk_fail bulkOk singleOk hfail, chunks_flatten]
  exact ⟨rfl, rfl⟩

/-- C4 witness: a 50-record batch whose bulk insert fails and where exactly
record #23 (index 22) fails individually yields 49 inserts and that single
record in the failure log. -/
theorem insert_batch_fallback_witness :
    (insertPoliticiansBatch (fun _ : List Nat => false) (fun n : Nat => n != 22) 50
        (List.range 50)).inserted = 49 ∧
    (insertPoliticiansBatch (fun _ : List Nat => false) (fun n : Nat => n != 22) 50
        (List.range 50)).failed = [22] := by
  have h := insert_batch_fallback (fun _ : List Nat => false) (fun n : Nat => n != 22) 50
    (List.range 50) (by decide) (fun _ => rfl)
  exact ⟨h.1.trans (by decide), h.2.trans (by decide)⟩

/-! ### Helper lemmas about the pipeline entry point -/

lemma chunks_nil (bs : Nat) : chunks bs ([] : List α) = [] := by
  cases bs <;> simp [chunks]

lemma insertPoliticiansBatch_nil (bulkOk : List α → Bool) (singleOk : α → Bool) (bs : Nat) :
    insertPoliticiansBatch bulkOk singleOk bs [] = { inserted := 0, failed := [] } := by
  unfold insertPoliticiansBatch
  rw [chunks_nil]
  rfl

lemma insertPoliticiansBatch_inserted_le (bulkOk : List α → Bool) (singleOk : α → Bool)
    (b : Nat) (pols : List α) :
    (insertPoliticiansBatch bulkOk singleOk (b + 1) pols).inserted ≤ pols.length := by
  have hacc := runBatches_account bulkOk singleOk (chunks (b + 1) pols)
  rw [chunks_flatten] at hacc
  unfold insertPoliticiansBatch
  omega

/-- C5: the configuration check is the only raising path: the run errors
(with the configuration message) exactly when `SUPABASE_URL` or
`SUPABASE_ANON_KEY` is unset or empty — independently of what any source
adapter did — and with valid credentials the run returns the inserted
count normally for every combination of adapter outcomes, a failed adapter
being absorbed at its boundary as the empty record list. -/
theorem config_error_only (url key : Option String) (bulkOk : List Politician → Bool)
    (singleOk : Politician → Bool)
    (deputies senators ministers mayors : Option (List Politician)) :
    (runMain url key bulkOk singleOk deputies senators ministers mayors
        = Except.error configErrMsg ↔ (falsyStr url || falsyStr key) = true) ∧
    ((falsyStr url || falsyStr key) = false →
      runMain url key bulkOk singleOk deputies senators ministers mayors
        = Except.ok (populateDatabase bulkOk singleOk deputies senators ministers mayors)) ∧
    absorb none = [] := by
  unfold runMain fetcherInit
  by_cases h : (falsyStr url || falsyStr key) = true
  · simp [h, absorb]
  · simp only [Bool.not_eq_true] at h
    simp [h, absorb]

/-- C5 witness: with credentials set and the deputies adapter failing, the
run completes normally. -/
theorem config_error_only_witness :
    runMain (some "https://example.supabase.co") (some "anon-key")
        (fun _ => true) (fun _ => true) none (some []) none none = Except.ok 0 :=
  (config_error_only (some "https://example.supabase.co") (some "anon-key")
      (fun _ => true) (fun _ => true) none (some []) none none).2.1 (by decide)

/-- C8 counterexample: the run's return value is a bare integer that
cannot contain the summary's `total_fetched` field — two runs with
different fetched totals (zero records vs one invalid record) return the
identical value. -/
theorem populate_no_summary_counterexample :
    populateDatabase (fun _ => true) (fun _ => true) none none none none
      = populateDatabase (fun _ => true) (fun _ => true) (some [dupBad]) none none none ∧
    totalFetched none none none none ≠ totalFetched (some [dupBad]) none none none := by
  refine ⟨by decide, by decide⟩

/-- C8 (amended): the pipeline entry point returns only the total inserted
count — the batch persister's inserted count over the deduplicated
concatenation of the four absorbed sources (0 when nothing survives
cleaning), never exceeding the number of deduplicated entities; fetched
and post-dedup totals and per-record failures are logged, not returned. -/
theorem populate_returns_inserted_count (bulkOk : List Politician → Bool)
    (singleOk : Politician → Bool)
    (deputies senators ministers mayors : Option (List Politician)) :
    populateDatabase bulkOk singleOk deputies senators ministers mayors
      = (insertPoliticiansBatch bulkOk singleOk 50
          (cleanAndDeduplicate
            (absorb deputies ++ absorb senators ++ absorb ministers ++ absorb mayors))).inserted ∧
    populateDatabase bulkOk singleOk deputies senators ministers mayors
      ≤ (cleanAndDeduplicate
          (absorb deputies ++ absorb senators ++ absorb ministers ++ absorb mayors)).length := by
  have h1 : populateDatabase bulkOk singleOk deputies senators ministers mayors
      = (insertPoliticiansBatch bulkOk singleOk 50
          (cleanAndDeduplicate
            (absorb deputies ++ absorb senators ++ absorb ministers ++ absorb mayors))).inserted := by
    simp only [populateDatabase]
    cases hc : cleanAndDeduplicate
        (absorb deputies ++ absorb senators ++ absorb ministers ++ absorb mayors) with
    | nil => simp [insertPoliticiansBatch_nil]
    | cons q qs => simp
  refine ⟨h1, ?_⟩
  rw [h1]
  exact insertPoliticiansBatch_inserted_le bulkOk singleOk 49
    (cleanAndDeduplicate (absorb deputies ++ absorb senators ++ absorb ministers ++ absorb mayors))

/-- C9: the styler always populates all six presentation fields, but the
deputy records built by `fetch_deputes` reach deduplication with all six
presentation fields absent — deputies are never passed through
`_assign_visual_elements` (unlike senators, ministers and mayors), so an
unstyled deputy record flows into and out of the deduplicator. -/
theorem deputies_skip_styler :
    (∀ p : Politician,
      ((assignVisualElements p).card_color).isSome = true ∧
      ((assignVisualElements p).cartoon_expression).isSome = true ∧
      ((assignVisualElements p).credibility_badge).isSome = true ∧
      ((assignVisualElements p).credibility_label).isSome = true ∧
      ((assignVisualElements p).highlight).isSome = true ∧
      ((assignVisualElements p).crown).isSome = true) ∧
    jeanDeputy.card_color = none ∧
    jeanDeputy.cartoon_expression = none ∧
    jeanDeputy.credibility_badge = none ∧
    jeanDeputy.credibility_label = none ∧
    jeanDeputy.highlight = none ∧
    jeanDeputy.crown = none ∧
    cleanAndDeduplicate (fetchDeputes "2024-12-27T00:00:00" [jeanRaw] ++ [] ++ [] ++ [])
      = [cleanFields jeanDeputy] ∧
    (cleanFields jeanDeputy).cartoon_expression = none := by
  refine ⟨fun p => ⟨rfl, rfl, rfl, rfl, rfl, rfl⟩,
    by decide, by decide, by decide, by decide, by decide, by decide, by decide, by decide⟩
